import Mathlib

/-!
# A verification development for pgmount (device discovery and daemon core)

This file gives a shallow embedding, in Lean 4, of the core of the pgmount
automounter: the `device` package (device records, display names, mount
directory computation, the FreeBSD/Linux discovery backends) and the `daemon`
package (poll-diff loop, mount/unmount/unlock orchestration, batch mount,
event hooks).

Modelling conventions:
* Go strings are modelled as Lean `String`; all inputs of interest are ASCII,
  so byte indexing in Go corresponds to character indexing here.
* External processes and the filesystem are modelled by explicit environment
  records (`ScanEnv`, `Env`) mapping each invocation to its outcome, and by an
  explicit trace of `Effect`s describing every side effect the daemon performs.
* Go maps are modelled as association lists; map iteration order, which Go
  leaves unspecified, becomes the list order of the model.
* A Go `panic` is modelled by `Option`: a function that can panic returns
  `none` exactly on the inputs where the Go code panics.
* Logging and desktop notifications are fire-and-forget external sinks and are
  elided (they influence no state and no claim).
-/

set_option autoImplicit false

namespace PGMount

/-! ## Go string primitives -/

/-- The whitespace set of Go `unicode.IsSpace` restricted to Latin-1
(space, tab, newline, vertical tab, form feed, carriage return, NEL, NBSP). -/
def goIsSpace (c : Char) : Bool :=
  c = ' ' || c = '\t' || c = '\n' || c = '\r' ||
  c = Char.ofNat 11 || c = Char.ofNat 12 || c = Char.ofNat 0x85 || c = Char.ofNat 0xA0

/-- `listIsPref p l` holds when `p` is a prefix of `l` (Go `strings.HasPrefix`). -/
def listIsPref : List Char → List Char → Bool
  | [], _ => true
  | _ :: _, [] => false
  | a :: as, b :: bs => a = b && listIsPref as bs

/-- Go `strings.HasPrefix`. -/
def goHasPref (s pre : String) : Bool :=
  listIsPref pre.data s.data

/-- `listHasSub sub l` holds when `sub` occurs contiguously in `l`
(Go `strings.Contains`). -/
def listHasSub (sub : List Char) : List Char → Bool
  | [] => listIsPref sub []
  | c :: rest => listIsPref sub (c :: rest) || listHasSub sub rest

/-- Go `strings.Contains`. -/
def goContains (s sub : String) : Bool :=
  listHasSub sub.data s.data

/-- Go `strings.TrimPrefix`. -/
def goTrimPref (s pre : String) : String :=
  if goHasPref s pre then ⟨s.data.drop pre.data.length⟩ else s

/-- Go `strings.TrimSpace`. -/
def goTrimSpace (s : String) : String :=
  ⟨((s.data.dropWhile goIsSpace).reverse.dropWhile goIsSpace).reverse⟩

/-- Go `strings.ToLower` (ASCII range; all inputs of interest are ASCII). -/
def goToLower (s : String) : String :=
  ⟨s.data.map Char.toLower⟩

/-- Split a character list into maximal runs of non-whitespace
(the core of Go `strings.Fields`); `cur` accumulates the current word in
reverse. -/
def goWordsAux : List Char → List Char → List (List Char)
  | [], cur => if cur.isEmpty then [] else [cur.reverse]
  | c :: rest, cur =>
    if goIsSpace c then
      if cur.isEmpty then goWordsAux rest []
      else cur.reverse :: goWordsAux rest []
    else goWordsAux rest (c :: cur)

/-- Go `strings.Fields`. -/
def goFields (s : String) : List String :=
  (goWordsAux s.data []).map fun w => ⟨w⟩

/-- Splitting engine for Go `strings.Split` with a non-empty separator:
`cur` holds the current piece in reverse, `fuel` bounds the recursion (the
caller passes the input length, which always suffices because a separator
match consumes at least one character). -/
def goSplitFuel (sep : List Char) (cur : List Char) : Nat → List Char → List (List Char)
  | _, [] => [cur.reverse]
  | 0, l => [cur.reverse ++ l]
  | fuel + 1, c :: rest =>
    if listIsPref sep (c :: rest) && !sep.isEmpty then
      cur.reverse :: goSplitFuel sep [] fuel (rest.drop (sep.length - 1))
    else
      goSplitFuel sep (c :: cur) fuel rest

/-- Go `strings.Split`.  An empty separator splits into the individual
character sequences, matching Go's documented behaviour. -/
def goSplit (s sep : String) : List String :=
  if sep.data.isEmpty then s.data.map fun c => (⟨[c]⟩ : String)
  else (goSplitFuel sep.data [] s.data.length s.data).map fun w => ⟨w⟩

/-- Strip one trailing carriage return (Go `bufio.ScanLines` behaviour). -/
def dropCR (s : String) : String :=
  match s.data.getLast? with
  | some c => if c = '\r' then ⟨s.data.dropLast⟩ else s
  | none => s

/-- The successive lines a Go `bufio.Scanner` with `ScanLines` yields for a
string: split at newlines, no trailing empty line for input ending in a
newline, and a trailing `\r` stripped from each line. -/
def goLines (s : String) : List String :=
  let parts := goSplit s "\n"
  let parts := if parts.getLast? = some "" then parts.dropLast else parts
  parts.map dropCR

/-- Replacement engine for Go `strings.ReplaceAll` with a non-empty pattern:
replaces non-overlapping occurrences left to right; `fuel` bounds the
recursion (a pattern match consumes at least one character). -/
def replaceAllFuel (pat new : List Char) : Nat → List Char → List Char
  | _, [] => []
  | 0, l => l
  | fuel + 1, c :: rest =>
    if listIsPref pat (c :: rest) && !pat.isEmpty then
      new ++ replaceAllFuel pat new fuel (rest.drop (pat.length - 1))
    else
      c :: replaceAllFuel pat new fuel rest

/-- Go `strings.ReplaceAll`.  An empty pattern inserts the replacement
before every character and at the end, matching Go's documented behaviour. -/
def strReplaceAll (s pat new : String) : String :=
  match pat.data with
  | [] => ⟨new.data ++ s.data.flatMap fun c => c :: new.data⟩
  | _ :: _ => ⟨replaceAllFuel pat.data new.data s.data.length s.data⟩

/-- Join a list of strings with a separator (Go `strings.Join`). -/
def joinSep (sep : String) : List String → String
  | [] => ""
  | [x] => x
  | x :: y :: rest => x ++ sep ++ joinSep sep (y :: rest)

/-- Decimal digit test, as in the Go source's explicit range checks. -/
def isDigitCh (c : Char) : Bool :=
  '0' ≤ c && c ≤ '9'

/-- Value of a list of decimal digit characters. -/
def digitsVal (l : List Char) : Nat :=
  l.foldl (fun a c => a * 10 + (c.toNat - 48)) 0

/-- Go `strconv.ParseUint(s, 10, 64)`, as an `Option`. -/
def goParseUint (s : String) : Option Nat :=
  if s ≠ "" && s.data.all isDigitCh && digitsVal s.data < 2 ^ 64 then
    some (digitsVal s.data)
  else none

/-- Go `fmt.Sscanf(s, "%d", &u)` for an unsigned 64-bit target: reads a
leading run of decimal digits; yields nothing when there is none. -/
def goScanUint (s : String) : Option Nat :=
  let ds := s.data.takeWhile isDigitCh
  if ds.isEmpty then none else some (digitsVal ds % 2 ^ 64)

/-- Plain decimal with optional fraction, as an exact numerator over a
power-of-ten denominator. -/
def parseDecFrac (l : List Char) : Option (Nat × Nat) :=
  let intPart := l.takeWhile isDigitCh
  match l.drop intPart.length with
  | [] => if intPart.isEmpty then none else some (digitsVal intPart, 1)
  | '.' :: fracs =>
    if fracs.all isDigitCh && !(intPart.isEmpty && fracs.isEmpty) then
      some (digitsVal intPart * 10 ^ fracs.length + digitsVal fracs, 10 ^ fracs.length)
    else none
  | _ => none

/-- Go `strconv.ParseFloat` restricted to the plain decimal forms `lsblk`
emits, kept exact: a sign and a numerator over a power-of-ten
denominator. -/
def goParseDec (s : String) : Option (Bool × Nat × Nat) :=
  match s.data with
  | '-' :: rest => (parseDecFrac rest).map fun p => (true, p)
  | '+' :: rest => (parseDecFrac rest).map fun p => (false, p)
  | l => (parseDecFrac l).map fun p => (false, p)

/-! ## Go `path/filepath` (Unix rules) -/

/-- One step of the lexical cleaning stack machine used by Go's
`filepath.Clean`: `stack` holds the output elements in reverse. -/
def cleanStep (rooted : Bool) (stack : List String) (c : String) : List String :=
  if c = ".." then
    match stack with
    | t :: rest => if t = ".." then c :: t :: rest else rest
    | [] => if rooted then [] else [c]
  else c :: stack

/-- Go `filepath.Clean` for Unix paths. -/
def pathClean (p : String) : String :=
  if p = "" then "."
  else
    let rooted := goHasPref p "/"
    let comps := (goSplit p "/").filter fun c => !(c = "" || c = ".")
    let stack := comps.foldl (cleanStep rooted) []
    let body := joinSep "/" stack.reverse
    if rooted then "/" ++ body
    else if body = "" then "." else body

/-- Go `filepath.Join`: empty elements are skipped, the rest joined with
`/` and cleaned; all-empty input gives the empty string uncleaned. -/
def filepathJoinList (elems : List String) : String :=
  let nonEmpty := elems.filter fun e => e ≠ ""
  if nonEmpty.isEmpty then "" else pathClean (joinSep "/" nonEmpty)

/-- Go `filepath.Join` with two elements. -/
def filepathJoin (a b : String) : String :=
  filepathJoinList [a, b]

/-! ## Device records (`device` package) -/

/-- `device.Device` — one discovered disk or partition. -/
structure Device where
  name : String
  path : String
  label : String
  uuid : String
  fsType : String
  size : Nat
  mountPoint : String
  isMounted : Bool
  isEncrypted : Bool
  isUnlocked : Bool
  isPartition : Bool
  isRemovable : Bool
  partitionNum : Int
deriving Repr, DecidableEq

/-- The all-zero `Device`, as produced by a Go composite literal that sets
only some fields. -/
def Device.zero : Device :=
  { name := "", path := "", label := "", uuid := "", fsType := "", size := 0,
    mountPoint := "", isMounted := false, isEncrypted := false,
    isUnlocked := false, isPartition := false, isRemovable := false,
    partitionNum := 0 }

/-- `Device.GetDisplayName`.  Go slices the UUID with `d.UUID[:8]`, which
panics when the UUID has fewer than 8 bytes; the panic is modelled by
`none`. -/
def getDisplayName (d : Device) : Option String :=
  if d.label ≠ "" then some d.label
  else if d.uuid ≠ "" then
    if 8 ≤ d.uuid.data.length then some (String.mk (d.uuid.data.take 8) ++ "...")
    else none
  else some d.name

/-- `Device.GetMountDirectory`: display name with `/` and ` ` replaced by
`_`, joined under `base`.  `none` models the panic inherited from
`GetDisplayName`. -/
def getMountDirectory (d : Device) (base : String) : Option String :=
  match getDisplayName d with
  | none => none
  | some name =>
    let name := strReplaceAll name "/" "_"
    let name := strReplaceAll name " " "_"
    some (filepathJoin base name)

/-! ## Discovery backend (`device` package)

External tools and files are modelled by a `ScanEnv` record: each field gives
the outcome (`.ok` output or `.error` message) of one kind of invocation.
-/

/-- Outcomes of the external tools and filesystem reads the discovery
backend performs. -/
structure ScanEnv where
  geomDiskList : Except String String
  gpartShow : String → Except String String
  camcontrolDevlist : Except String String
  fileS : String → Except String String
  glabelStatus : Except String String
  dumpe2fs : String → Except String String
  mtabContent : Except String String
  mountCmdResult : Except String String
  lsblkJ : Except String String
  blkid : String → Except String String
  readDir : String → Except String (List String)
  readFile : String → Except String String

/-- One line of `Manager.parseGeomDiskList`'s scanner loop; the state is the
finished records plus the record currently being built. -/
def geomLineStep (st : List Device × Option Device) (rawLine : String) :
    List Device × Option Device :=
  let line := goTrimSpace rawLine
  if goHasPref line "Geom name:" then
    let name := goTrimSpace (goTrimPref line "Geom name:")
    let devs :=
      match st.2 with
      | some cur => st.1 ++ [cur]
      | none => st.1
    (devs, some { Device.zero with name := name, path := "/dev/" ++ name })
  else
    match st.2 with
    | none => st
    | some cur =>
      if goHasPref line "Mediasize:" then
        let parts := goFields line
        if parts.length ≥ 2 then
          match goScanUint (parts.getD 1 "") with
          | some v => (st.1, some { cur with size := v })
          | none => (st.1, some cur)
        else (st.1, some cur)
      else (st.1, some cur)

/-- `Manager.parseGeomDiskList`: stanzas headed `Geom name:` with indented
`Mediasize:` lines. -/
def parseGeomDiskList (output : String) : List Device :=
  let st := (goLines output).foldl geomLineStep ([], none)
  match st.2 with
  | some cur => st.1 ++ [cur]
  | none => st.1

/-- `Manager.isRemovableDevice`: device-name prefix heuristic with a
`camcontrol devlist` fallback. -/
def isRemovableDevice (env : ScanEnv) (name : String) : Bool :=
  if goHasPref name "da" || goHasPref name "umass" then true
  else
    match env.camcontrolDevlist with
    | .error _ => false
    | .ok out =>
      (goLines out).any fun line =>
        goContains line name &&
          (goContains (goToLower line) "usb" || goContains (goToLower line) "mass storage")

/-- `Manager.extractMetadata`: label via `glabel status`, and for ext
filesystems UUID/label via `dumpe2fs -h`. -/
def extractMetadata (env : ScanEnv) (dev : Device) : Device :=
  let dev :=
    match env.glabelStatus with
    | .error _ => dev
    | .ok out =>
      (goLines out).foldl
        (fun d line =>
          if goContains line d.name then
            let fields := goFields line
            if fields.length ≥ 1 then { d with label := fields.headD "" } else d
          else d)
        dev
  if goHasPref dev.fsType "ext" then
    match env.dumpe2fs dev.path with
    | .error _ => dev
    | .ok out =>
      (goLines out).foldl
        (fun d line =>
          if goHasPref line "Filesystem UUID:" then
            { d with uuid := goTrimSpace (goTrimPref line "Filesystem UUID:") }
          else if goHasPref line "Filesystem volume name:" then
            let label := goTrimSpace (goTrimPref line "Filesystem volume name:")
            if label ≠ "<none>" && label ≠ "" then { d with label := label } else d
          else d)
        dev
  else dev

/-- `Manager.detectFilesystem`: filesystem type, GELI flag and metadata from
`file -s` output. -/
def detectFilesystem (env : ScanEnv) (dev : Device) : Device :=
  match env.fileS dev.path with
  | .error _ => dev
  | .ok fsInfo =>
    let dev :=
      if goContains fsInfo "ext2" || goContains fsInfo "ext3" || goContains fsInfo "ext4" then
        if goContains fsInfo "ext4" then { dev with fsType := "ext4" }
        else if goContains fsInfo "ext3" then { dev with fsType := "ext3" }
        else { dev with fsType := "ext2" }
      else if goContains fsInfo "FAT" then { dev with fsType := "msdosfs" }
      else if goContains fsInfo "NTFS" then { dev with fsType := "ntfs" }
      else if goContains fsInfo "UFS" then { dev with fsType := "ufs" }
      else if goContains fsInfo "ZFS" then { dev with fsType := "zfs" }
      else dev
    let dev := if goContains fsInfo "GELI" then { dev with isEncrypted := true } else dev
    extractMetadata env dev

/-- `Manager.parseMountOutput`: `device on mountpoint (options)` lines. -/
def parseMountOutput (dev : Device) (output : String) : Device :=
  (goLines output).foldl
    (fun d line =>
      if goContains line d.path then
        let parts := goSplit line " on "
        if parts.length ≥ 2 then
          let mountInfo := goSplit (parts.getD 1 "") " ("
          if mountInfo.length ≥ 1 then
            { d with mountPoint := goTrimSpace (mountInfo.headD ""), isMounted := true }
          else d
        else d
      else d)
    dev

/-- `Manager.checkMountStatus`: `/etc/mtab` lines, else `mount` output. -/
def checkMountStatus (env : ScanEnv) (dev : Device) : Device :=
  match env.mtabContent with
  | .error _ =>
    match env.mountCmdResult with
    | .error _ => dev
    | .ok out => parseMountOutput dev out
  | .ok content =>
    (goLines content).foldl
      (fun d line =>
        if goHasPref line (d.path ++ " ") then
          let fields := goFields line
          if fields.length ≥ 2 then
            { d with mountPoint := fields.getD 1 "", isMounted := true }
          else d
        else d)
      dev

/-- The inner search of `Manager.getPartitions`: the first field from index 3
on that starts with the disk name, or `""`. -/
def findPartField (fields : List String) (diskName : String) : String :=
  match (fields.drop 3).find? (fun f => goHasPref f diskName) with
  | some f => f
  | none => ""

/-- `Manager.getPartitions`: partitions of one disk from `gpart show -p`
output; a failing `gpart` yields the empty list with no error. -/
def getPartitions (env : ScanEnv) (diskName : String) : List Device :=
  match env.gpartShow diskName with
  | .error _ => []
  | .ok out =>
    (goLines out).foldl
      (fun acc rawLine =>
        let line := goTrimSpace rawLine
        let fields := goFields line
        if fields.length ≥ 4 && !goHasPref line "=>" then
          let f0 := fields.headD ""
          if f0.data.length > 0 && isDigitCh (f0.data.headD ' ') then
            let partName := findPartField fields diskName
            if partName ≠ "" then
              let part := { Device.zero with
                name := partName, path := "/dev/" ++ partName,
                isPartition := true, isRemovable := true }
              let part := detectFilesystem env part
              let part := checkMountStatus env part
              acc ++ [part]
            else acc
          else acc
        else acc)
      []

/-- `Manager.scanFreeBSD`: `geom disk list`, then per removable disk its
partitions.  A failing `geom` fails the whole scan; there is no fallback. -/
def scanFreeBSD (env : ScanEnv) : Except String (List Device) :=
  match env.geomDiskList with
  | .error e => .error ("failed to list disks: " ++ e)
  | .ok out =>
    let diskDevices := parseGeomDiskList out
    .ok (diskDevices.foldl
      (fun acc disk =>
        let isRem := isRemovableDevice env disk.name
        let disk := { disk with isRemovable := isRem }
        if isRem then acc ++ [disk] ++ getPartitions env disk.name
        else acc)
      [])

/-- First index of `sub` in a character list (Go `strings.Index`);
`none` models Go's `-1`. -/
def subIndex (sub : List Char) : List Char → Option Nat
  | [] => if sub.isEmpty then some 0 else none
  | c :: rest =>
    if listIsPref sub (c :: rest) then some 0
    else (subIndex sub rest).map (· + 1)

/-- Go `strings.Index`. -/
def strIndex (s sub : String) : Option Nat :=
  subIndex sub.data s.data

/-- The repeated extraction pattern of `parseLsblkJSON`: at offset
`idx + off`, skip to just after the next `"` and take up to the following
`"`; `none` when either quote is missing (the Go code then skips the
update). -/
def quotedAfter (line : String) (idx off : Nat) : Option String :=
  let rest : String := ⟨line.data.drop (idx + off)⟩
  match strIndex rest "\"" with
  | none => none
  | some idx2 =>
    let rest : String := ⟨rest.data.drop (idx2 + 1)⟩
    match strIndex rest "\"" with
    | none => none
    | some idx3 => some ⟨rest.data.take idx3⟩

/-- Field extraction of `parseLsblkJSON`: locate `key`, then read the next
quoted value starting `off` characters after the key's position. -/
def extractField (line key : String) (off : Nat) : Option String :=
  match strIndex line key with
  | none => none
  | some idx => quotedAfter line idx off

/-- `Manager.parseLinuxSize`: plain byte count, or a decimal number with a
`K`/`M`/`G`/`T` suffix.  Go converts through `float64`; the model computes
with exact rationals and truncates, which agrees on the values `lsblk`
emits. -/
def parseLinuxSize (sizeStr : String) : Option Nat :=
  let s := goTrimSpace sizeStr
  if s = "" || s = "null" then none
  else
    match goParseUint s with
    | some v => some v
    | none =>
      let mult_num :=
        match s.data.getLast? with
        | some c =>
          if c = 'K' || c = 'k' then (1024, String.mk s.data.dropLast)
          else if c = 'M' || c = 'm' then (1024 * 1024, String.mk s.data.dropLast)
          else if c = 'G' || c = 'g' then (1024 * 1024 * 1024, String.mk s.data.dropLast)
          else if c = 'T' || c = 't' then (1024 * 1024 * 1024 * 1024, String.mk s.data.dropLast)
          else ((1 : Nat), s)
        | none => ((1 : Nat), s)
      match goParseDec mult_num.2 with
      | some (neg, num, den) =>
        -- Go truncates `float64(value) * float64(multiplier)` to `uint64`;
        -- for the non-negative decimals `lsblk` emits this is exact
        -- truncating division.  A negative value is modelled as zero.
        some (if neg then 0 else num * mult_num.1 / den % 2 ^ 64)
      | none => none

/-- One line of `Manager.parseLsblkJSON`'s hand-rolled scanner; the state is
the finished records plus the record currently being built. -/
def lsblkLineStep (st : List Device × Option Device) (rawLine : String) :
    List Device × Option Device :=
  let line := goTrimSpace rawLine
  let devices := st.1
  let currentDevice :=
    if goContains line "\"name\"" then
      match extractField line "\"name\"" 6 with
      | some name => some { Device.zero with name := name, path := "/dev/" ++ name }
      | none => st.2
    else st.2
  match currentDevice with
  | none => (devices, none)
  | some cur =>
    let cur :=
      if goContains line "\"type\"" && goContains line "\"disk\"" then
        { cur with isPartition := false }
      else if goContains line "\"type\"" && goContains line "\"part\"" then
        { cur with isPartition := true }
      else cur
    let cur :=
      if goContains line "\"rm\"" && goContains line "\"1\"" then
        { cur with isRemovable := true }
      else cur
    let cur :=
      if goContains line "\"hotplug\"" && goContains line "\"1\"" then
        { cur with isRemovable := true }
      else cur
    let cur :=
      if goContains line "\"mountpoint\"" then
        match extractField line "\"mountpoint\"" 13 with
        | some mp =>
          if mp ≠ "" && mp ≠ "null" then { cur with mountPoint := mp, isMounted := true }
          else cur
        | none => cur
      else cur
    let cur :=
      if goContains line "\"fstype\"" then
        match extractField line "\"fstype\"" 9 with
        | some v => if v ≠ "" && v ≠ "null" then { cur with fsType := v } else cur
        | none => cur
      else cur
    let cur :=
      if goContains line "\"label\"" then
        match extractField line "\"label\"" 8 with
        | some v => if v ≠ "" && v ≠ "null" then { cur with label := v } else cur
        | none => cur
      else cur
    let cur :=
      if goContains line "\"uuid\"" then
        match extractField line "\"uuid\"" 7 with
        | some v => if v ≠ "" && v ≠ "null" then { cur with uuid := v } else cur
        | none => cur
      else cur
    let cur :=
      if goContains line "\"size\"" then
        match extractField line "\"size\"" 7 with
        | some v =>
          match parseLinuxSize v with
          | some n => { cur with size := n }
          | none => cur
        | none => cur
      else cur
    if goContains line "\x7d" && !goContains line "\x7d," then
      if cur.name ≠ "" then (devices ++ [cur], none) else (devices, none)
    else (devices, some cur)

/-- `Manager.parseLsblkJSON`: the hand-rolled line scanner over
`lsblk -J` output. -/
def parseLsblkJSON (output : String) : List Device :=
  ((goSplit output "\n").foldl lsblkLineStep ([], none)).1

/-- `Manager.detectFilesystemLinux`: `blkid -o export` key lines, with
`detectFilesystem` as fallback when no type was found. -/
def detectFilesystemLinux (env : ScanEnv) (dev : Device) : Device :=
  let dev :=
    match env.blkid dev.path with
    | .error _ => dev
    | .ok out =>
      (goLines out).foldl
        (fun d line =>
          if goHasPref line "TYPE=" then { d with fsType := goTrimPref line "TYPE=" }
          else if goHasPref line "LABEL=" then { d with label := goTrimPref line "LABEL=" }
          else if goHasPref line "UUID=" then { d with uuid := goTrimPref line "UUID=" }
          else d)
        dev
  if dev.fsType = "" then detectFilesystem env dev else dev

/-- `Manager.findLinuxPartitions`: subdirectories of
`/sys/block/<device>` whose names extend the device name. -/
def findLinuxPartitions (env : ScanEnv) (deviceName : String) : List Device :=
  let deviceDir := filepathJoin "/sys/block" deviceName
  match env.readDir deviceDir with
  | .error _ => []
  | .ok entries =>
    entries.foldl
      (fun acc partName =>
        if !goHasPref partName deviceName then acc
        else if partName = deviceName then acc
        else
          let part := { Device.zero with
            name := partName, path := "/dev/" ++ partName,
            isPartition := true, isRemovable := true }
          let part :=
            match env.readFile (filepathJoinList [deviceDir, partName, "size"]) with
            | .ok sizeData =>
              match goParseUint (goTrimSpace sizeData) with
              | some sectors => { part with size := sectors * 512 % 2 ^ 64 }
              | none => part
            | .error _ => part
          let part := detectFilesystemLinux env part
          let part := checkMountStatus env part
          acc ++ [part])
      []

/-- `Manager.scanLinuxFallback`: enumerate `/sys/block`, keeping devices
whose `removable` attribute reads `1`. -/
def scanLinuxFallback (env : ScanEnv) : Except String (List Device) :=
  match env.readDir "/sys/block" with
  | .error e => .error ("failed to read /sys/block: " ++ e)
  | .ok entries =>
    .ok (entries.foldl
      (fun acc deviceName =>
        match env.readFile (filepathJoinList ["/sys/block", deviceName, "removable"]) with
        | .error _ => acc
        | .ok removableData =>
          if goTrimSpace removableData = "1" then
            let dev := { Device.zero with
              name := deviceName, path := "/dev/" ++ deviceName,
              isRemovable := true, isPartition := false }
            let dev :=
              match env.readFile (filepathJoinList ["/sys/block", deviceName, "size"]) with
              | .ok sizeData =>
                match goParseUint (goTrimSpace sizeData) with
                | some sectors => { dev with size := sectors * 512 % 2 ^ 64 }
                | none => dev
              | .error _ => dev
            acc ++ [dev] ++ findLinuxPartitions env deviceName
          else acc)
      [])

/-- `Manager.scanLinux`: `lsblk -J`, falling back to `/sys/block`
enumeration when `lsblk` fails; removable devices only. -/
def scanLinux (env : ScanEnv) : Except String (List Device) :=
  match env.lsblkJ with
  | .error _ => scanLinuxFallback env
  | .ok output => .ok ((parseLsblkJSON output).filter (·.isRemovable))

/-! ## Daemon (`daemon` package)

The daemon's configuration is modelled with the fields the daemon reads;
the policy lookups (`GetMountOptions` and friends) are pure functions, as
the spec treats configuration as a pure lookup service.  External processes
and filesystem calls are modelled by an `Env` of outcomes, and every side
effect performed is recorded in an explicit `Effect` trace.  Desktop
notifications and log lines are elided (external fire-and-forget sinks).
-/

/-- Membership of a string in a list, as the Go `map[string]bool` test. -/
def memStr (p : String) : List String → Bool
  | [] => false
  | q :: rest => p = q || memStr p rest

/-- Lookup in a `map[string]string`, modelled as an association list. -/
def lookupStr (k : String) : List (String × String) → Option String
  | [] => none
  | (k', v) :: rest => if k' = k then some v else lookupStr k rest

/-- Lookup in the daemon's `mounted` map. -/
def assocGet (k : String) : List (String × Device) → Option Device
  | [] => none
  | (k', v) :: rest => if k' = k then some v else assocGet k rest

/-- Go map assignment `m[k] = v` on the association-list model: replace the
existing entry or append a new one. -/
def assocSet (k : String) (v : Device) : List (String × Device) → List (String × Device)
  | [] => [(k, v)]
  | (k', v') :: rest => if k' = k then (k, v) :: rest else (k', v') :: assocSet k v rest

/-- Go `delete(m, k)` on the association-list model. -/
def assocDel (k : String) : List (String × Device) → List (String × Device)
  | [] => []
  | (k', v') :: rest => if k' = k then assocDel k rest else (k', v') :: assocDel k rest

/-- `config.GELIConfig`, the fields the daemon reads. -/
structure GELIConfig where
  enabled : Bool
  passwordCmd : String
  keyFiles : List (String × String)

/-- `config.Config`, the fields the daemon reads; the policy lookups are
pure functions of `(fstype, label, uuid, path)`. -/
structure Config where
  mountBase : String
  fileManager : String
  eventHooks : List (String × String)
  geli : GELIConfig
  mountOpts : String → String → String → String → List String

/-- Side effects the daemon performs on the outside world. -/
inductive Effect where
  | mkdir (path : String)
  | exec (argv : List String)
  | execStdin (argv : List String) (stdin : String)
  | removeFile (path : String)
  | hookLaunch (argv : List String)
  | fileManagerOpen (argv : List String)
deriving Repr, DecidableEq

/-- Outcomes of the daemon's external invocations: `execResult` is
`exec.Command(...).CombinedOutput()` (error message and combined output on
failure), `execStdinResult` the same with a standard input attached,
`cmdOutput` is `cmd.Output()`, `promptRead` the terminal password read, and
`mkdirAll` gives `some errMsg` exactly when `os.MkdirAll` fails. -/
structure Env where
  execResult : List String → Except (String × String) String
  execStdinResult : List String → String → Except (String × String) String
  cmdOutput : List String → Except String String
  promptRead : Except String String
  mkdirAll : String → Option String

/-- Go `fmt.Errorf("...: %w (output: %s)", err, output)`. -/
def fmtExecErr (pre : String) (e : String × String) : String :=
  pre ++ e.1 ++ " (output: " ++ e.2 ++ ")"

/-- The daemon's persistent bookkeeping: the `mounted` map. -/
structure DaemonState where
  mounted : List (String × Device)
deriving Repr, DecidableEq

/-- Decidable equality for Go-style results (`Except` with string errors),
needed so concrete runs of the model can be checked by `decide`. -/
def exceptDecEq {α : Type} [DecidableEq α] : (a b : Except String α) → Decidable (a = b)
  | .ok x, .ok y =>
    if h : x = y then isTrue (by rw [h]) else isFalse (by simp [h])
  | .ok _, .error _ => isFalse (by simp)
  | .error _, .ok _ => isFalse (by simp)
  | .error x, .error y =>
    if h : x = y then isTrue (by rw [h]) else isFalse (by simp [h])

instance {α : Type} [DecidableEq α] : DecidableEq (Except String α) := exceptDecEq

/-- Result of one mount/unmount orchestration step: the Go error result,
the daemon state and device record after the step, and the side-effect
trace. -/
structure StepResult where
  res : Except String Unit
  st : DaemonState
  dev : Device
  effs : List Effect
deriving Repr, DecidableEq

/-- The placeholder substitution of `Daemon.executeEventHook`: textual
replacement of `{device}`, `{label}`, `{uuid}`, `{mount_point}` in the
configured command line. -/
def buildHookCmd (hookCmd : String) (dev : Device) : String :=
  let cmd := strReplaceAll hookCmd "{device}" dev.path
  let cmd := strReplaceAll cmd "{label}" dev.label
  let cmd := strReplaceAll cmd "{uuid}" dev.uuid
  strReplaceAll cmd "{mount_point}" dev.mountPoint

/-- `Daemon.executeEventHook`: when a hook is configured for `event`, the
substituted command line is handed to `sh -c` (fire and forget). -/
def executeEventHook (cfg : Config) (event : String) (dev : Device) : List Effect :=
  match lookupStr event cfg.eventHooks with
  | some hookCmd => [.hookLaunch ["sh", "-c", buildHookCmd hookCmd dev]]
  | none => []

/-- `Daemon.getPassword`: a configured password command run through
`sh -c`, else a prompt on the controlling terminal.  The prompt formats the
device's display name, so it inherits the `GetDisplayName` panic
(`none`). -/
def getPassword (cfg : Config) (env : Env) (dev : Device) :
    Option (Except String String × List Effect) :=
  if cfg.geli.passwordCmd ≠ "" then
    let argv := ["sh", "-c", cfg.geli.passwordCmd]
    match env.cmdOutput argv with
    | .error e => some (.error e, [.exec argv])
    | .ok out => some (.ok (goTrimSpace out), [.exec argv])
  else
    match getDisplayName dev with
    | none => none
    | some _ =>
      match env.promptRead with
      | .error e => some (.error e, [])
      | .ok password => some (.ok (goTrimSpace password), [])

/-- `Daemon.unlockDevice`: `geli attach` with a registered keyfile, else
with a password piped to standard input.  On success the device is marked
unlocked. -/
def unlockDevice (cfg : Config) (env : Env) (dev : Device) :
    Option (Except String Device × List Effect) :=
  if !cfg.geli.enabled then some (.error "GELI support is disabled", [])
  else
    match lookupStr dev.uuid cfg.geli.keyFiles with
    | some keyfile =>
      let argv := ["geli", "attach", "-k", keyfile, dev.path]
      match env.execResult argv with
      | .error e => some (.error (fmtExecErr "geli attach failed: " e), [.exec argv])
      | .ok _ => some (.ok { dev with isUnlocked := true }, [.exec argv])
    | none =>
      match getPassword cfg env dev with
      | none => none
      | some (.error e, pwEffs) => some (.error ("failed to get password: " ++ e), pwEffs)
      | some (.ok password, pwEffs) =>
        let argv := ["geli", "attach", dev.path]
        match env.execStdinResult argv (password ++ "\n") with
        | .error e =>
          some (.error (fmtExecErr "geli attach failed: " e), pwEffs ++ [.execStdin argv (password ++ "\n")])
        | .ok _ =>
          some (.ok { dev with isUnlocked := true }, pwEffs ++ [.execStdin argv (password ++ "\n")])

/-- `Daemon.mountDevice`: refuse when already mounted; unlock an encrypted,
still-locked device first; compute the mount directory; create it; run the
mount tool; on success update the device record and the `mounted` map,
dispatch the `device_mounted` hook and optionally the file manager.
`none` models a Go panic (short UUID in `GetMountDirectory` or in the
password prompt). -/
def mountDevice (cfg : Config) (env : Env) (st : DaemonState) (dev : Device) :
    Option StepResult :=
  if dev.isMounted then
    some ⟨.error ("device already mounted at " ++ dev.mountPoint), st, dev, []⟩
  else
    let unlockStep : Option (Except String Device × List Effect) :=
      if dev.isEncrypted && !dev.isUnlocked then unlockDevice cfg env dev
      else some (.ok dev, [])
    match unlockStep with
    | none => none
    | some (.error e, effs) => some ⟨.error ("failed to unlock device: " ++ e), st, dev, effs⟩
    | some (.ok dev1, effs) =>
      match getMountDirectory dev1 cfg.mountBase with
      | none => none
      | some mountPoint =>
        match env.mkdirAll mountPoint with
        | some e =>
          some ⟨.error ("failed to create mount point: " ++ e), st, dev1,
            effs ++ [.mkdir mountPoint]⟩
        | none =>
          let opts := cfg.mountOpts dev1.fsType dev1.label dev1.uuid dev1.path
          let args :=
            (if opts.length > 0 then ["-o", joinSep "," opts] else []) ++
            (if dev1.fsType ≠ "" && dev1.fsType ≠ "auto" then ["-t", dev1.fsType] else []) ++
            [dev1.path, mountPoint]
          let argv := "mount" :: args
          match env.execResult argv with
          | .error e =>
            some ⟨.error (fmtExecErr "mount failed: " e), st, dev1,
              effs ++ [.mkdir mountPoint, .exec argv]⟩
          | .ok _ =>
            let dev2 := { dev1 with mountPoint := mountPoint, isMounted := true }
            let st2 : DaemonState := ⟨assocSet dev2.path dev2 st.mounted⟩
            let hookEffs := executeEventHook cfg "device_mounted" dev2
            let fmEffs :=
              if cfg.fileManager ≠ "" then [Effect.fileManagerOpen [cfg.fileManager, mountPoint]]
              else []
            some ⟨.ok (), st2, dev2, effs ++ [.mkdir mountPoint, .exec argv] ++ hookEffs ++ fmEffs⟩

/-- `Daemon.unmountDevice`: refuse when not mounted; run the unmount tool
against the recorded mount point; on success clear the record, delete the
map entry, remove the (empty) mount directory best-effort and dispatch the
`device_unmounted` hook.  On tool failure everything is left unchanged. -/
def unmountDevice (cfg : Config) (env : Env) (st : DaemonState) (dev : Device) : StepResult :=
  if !dev.isMounted then ⟨.error "device not mounted", st, dev, []⟩
  else
    let argv := ["umount", dev.mountPoint]
    match env.execResult argv with
    | .error e => ⟨.error (fmtExecErr "unmount failed: " e), st, dev, [.exec argv]⟩
    | .ok _ =>
      let mountPoint := dev.mountPoint
      let dev1 := { dev with mountPoint := "", isMounted := false }
      let st1 : DaemonState := ⟨assocDel dev.path st.mounted⟩
      let hookEffs := executeEventHook cfg "device_unmounted" dev1
      ⟨.ok (), st1, dev1, [.exec argv, .removeFile mountPoint] ++ hookEffs⟩

/-- The loop body of `Daemon.MountAll` over the scanned devices: each
partition that is not mounted gets its own `mountDevice` call; a failing
call is logged and the loop continues.  Returns the final state, the paths
for which `mountDevice` was invoked, and the combined effect trace. -/
def mountAllLoop (cfg : Config) (env : Env) (st : DaemonState) :
    List Device → Option (DaemonState × List String × List Effect)
  | [] => some (st, [], [])
  | dev :: rest =>
    if dev.isPartition && !dev.isMounted then
      match mountDevice cfg env st dev with
      | none => none
      | some r =>
        match mountAllLoop cfg env r.st rest with
        | none => none
        | some (st', attempted, effs) => some (st', dev.path :: attempted, r.effs ++ effs)
    else mountAllLoop cfg env st rest

/-- `Daemon.MountAll`: scan, then attempt to mount every unmounted
partition; per-device errors are only logged, and the function returns
`nil` unless the scan itself failed. -/
def mountAll (cfg : Config) (env : Env) (st : DaemonState)
    (scanRes : Except String (List Device)) :
    Option (Except String Unit × DaemonState × List String × List Effect) :=
  match scanRes with
  | .error e => some (.error ("failed to scan devices: " ++ e), st, [], [])
  | .ok devices =>
    match mountAllLoop cfg env st devices with
    | none => none
    | some (st', attempted, effs) => some (.ok (), st', attempted, effs)

/-! ## Poll-diff loop (`Daemon.pollDevices`)

One tick of the loop: the scan result is diffed against the known-device
set.  The known set, a Go `map[string]bool`, is modelled as a list; Go's
unspecified map iteration order becomes the list order.  "Emitting" an
event is the call to `onDeviceAdded`/`onDeviceRemoved`. -/

/-- The first loop of a tick: devices in scan order; a path not yet known
is emitted as Added and inserted into the known set. -/
def pollAddLoop : List Device → List String → List String × List String
  | [], known => ([], known)
  | dev :: rest, known =>
    if memStr dev.path known then pollAddLoop rest known
    else
      let r := pollAddLoop rest (known ++ [dev.path])
      (dev.path :: r.1, r.2)

/-- The second loop of a tick: known paths in map-iteration order; a path
absent from the current scan is emitted as Removed and deleted. -/
def pollRemoveLoop (current : List String) : List String → List String × List String
  | [] => ([], [])
  | p :: rest =>
    let r := pollRemoveLoop current rest
    if memStr p current then (r.1, p :: r.2) else (p :: r.1, r.2)

/-- One tick of `Daemon.pollDevices`: `(added, removed, newKnown)`. -/
def pollTick (known : List String) (scanned : List Device) :
    List String × List String × List String :=
  let current := scanned.map (·.path)
  let ar := pollAddLoop scanned known
  let rr := pollRemoveLoop current ar.2
  (ar.1, rr.1, rr.2)

/-- Lexicographic (byte-wise) string order, the order "path-sorted" refers
to. -/
def lexLtCh : List Char → List Char → Bool
  | [], [] => false
  | [], _ :: _ => true
  | _ :: _, [] => false
  | a :: as, b :: bs => if a = b then lexLtCh as bs else decide (a < b)

/-- Lexicographic order on strings. -/
def strLexLt (a b : String) : Bool :=
  lexLtCh a.data b.data

/-! ## Concrete fixtures for counterexamples and witnesses -/

/-- A device whose label carries shell metacharacters. -/
def exInjDev : Device :=
  { Device.zero with
    name := "da0p1", path := "/dev/da0p1", label := "x; touch /tmp/pwn",
    uuid := "1234-ABCD", isPartition := true, isRemovable := true }

/-- A configuration with an event hook template using the `{label}`
placeholder. -/
def exHookCfg : Config :=
  { mountBase := "/media", fileManager := "",
    eventHooks := [("device_added", "logger {label}")],
    geli := { enabled := false, passwordCmd := "", keyFiles := [] },
    mountOpts := fun _ _ _ _ => [] }

/-- Scan fixture: two fresh devices whose paths arrive in reverse
lexicographic order. -/
def exDevA : Device := { Device.zero with name := "a", path := "/dev/a" }

/-- Second scan fixture device; its path sorts before `exDevA`'s does not
hold: `/dev/a < /dev/b`. -/
def exDevB : Device := { Device.zero with name := "b", path := "/dev/b" }

/-- A `ScanEnv` where the primary FreeBSD tool (`geom disk list`) fails
while every other enumeration channel works. -/
def exScanEnvGeomFail : ScanEnv :=
  { geomDiskList := .error "exit status 1",
    gpartShow := fun _ => .ok "",
    camcontrolDevlist := .ok "",
    fileS := fun _ => .ok "",
    glabelStatus := .ok "",
    dumpe2fs := fun _ => .ok "",
    mtabContent := .ok "",
    mountCmdResult := .ok "",
    lsblkJ := .ok "",
    blkid := fun _ => .ok "",
    readDir := fun _ => .ok [],
    readFile := fun _ => .ok "" }

/-- A `ScanEnv` where every enumeration method fails. -/
def exScanEnvAllFail : ScanEnv :=
  { geomDiskList := .error "geom gone",
    gpartShow := fun _ => .error "gpart gone",
    camcontrolDevlist := .error "camcontrol gone",
    fileS := fun _ => .error "file gone",
    glabelStatus := .error "glabel gone",
    dumpe2fs := fun _ => .error "dumpe2fs gone",
    mtabContent := .error "no mtab",
    mountCmdResult := .error "mount gone",
    lsblkJ := .error "lsblk gone",
    blkid := fun _ => .error "blkid gone",
    readDir := fun _ => .error "sys gone",
    readFile := fun _ => .error "sys gone" }

/-- A plain daemon configuration: no hooks, no file manager, GELI
disabled, no mount options. -/
def exPlainCfg : Config :=
  { mountBase := "/media", fileManager := "",
    eventHooks := [],
    geli := { enabled := false, passwordCmd := "", keyFiles := [] },
    mountOpts := fun _ _ _ _ => [] }

/-- First unmounted partition for the batch-mount scenario. -/
def exP1 : Device :=
  { Device.zero with
    name := "da0p1", path := "/dev/da0p1", label := "P1",
    isPartition := true, isRemovable := true }

/-- Second unmounted partition for the batch-mount scenario (the one whose
mount fails). -/
def exP2 : Device :=
  { Device.zero with
    name := "da0p2", path := "/dev/da0p2", label := "P2",
    isPartition := true, isRemovable := true }

/-- Third unmounted partition for the batch-mount scenario. -/
def exP3 : Device :=
  { Device.zero with
    name := "da0p3", path := "/dev/da0p3", label := "P3",
    isPartition := true, isRemovable := true }

/-- The batch-mount scenario's scan result. -/
def exBatchDevs : List Device :=
  [exP1, exP2, exP3]

/-- A daemon `Env` where every external call succeeds. -/
def exEnvAllOk : Env :=
  { execResult := fun _ => .ok "",
    execStdinResult := fun _ _ => .ok "",
    cmdOutput := fun _ => .ok "",
    promptRead := .ok "",
    mkdirAll := fun _ => none }

/-- A daemon `Env` where mounting the second batch partition fails and
everything else succeeds. -/
def exEnvSecondFails : Env :=
  { execResult := fun argv =>
      if argv = ["mount", "/dev/da0p2", "/media/P2"] then
        .error ("exit status 1", "mount: bad superblock")
      else .ok "",
    execStdinResult := fun _ _ => .ok "",
    cmdOutput := fun _ => .ok "",
    promptRead := .ok "",
    mkdirAll := fun _ => none }

/-- A daemon `Env` where the unmount tool fails and everything else
succeeds. -/
def exEnvUmountFail : Env :=
  { execResult := fun argv =>
      if argv.headD "" = "umount" then .error ("exit status 1", "umount: device busy")
      else .ok "",
    execStdinResult := fun _ _ => .ok "",
    cmdOutput := fun _ => .ok "",
    promptRead := .ok "",
    mkdirAll := fun _ => none }

/-- A device currently tracked as mounted. -/
def exMountedDev : Device :=
  { Device.zero with
    name := "da0p1", path := "/dev/da0p1", label := "W", fsType := "msdosfs",
    mountPoint := "/media/W", isMounted := true, isPartition := true,
    isRemovable := true }

/-- An unmounted, labelled, unencrypted partition for the round-trip
scenario. -/
def exRoundTripDev : Device :=
  { Device.zero with
    name := "da0p1", path := "/dev/da0p1", label := "USB",
    isPartition := true, isRemovable := true }

/-- An encrypted, still-locked partition. -/
def exEncDev : Device :=
  { Device.zero with
    name := "da0p2", path := "/dev/da0p2", label := "SECRET",
    isEncrypted := true, isPartition := true, isRemovable := true }

/-- `exRoundTripDev` as `mountDevice` leaves it after a successful mount. -/
def exRTMounted : Device :=
  { exRoundTripDev with mountPoint := "/media/USB", isMounted := true }

/-- The full `StepResult` of successfully mounting `exRoundTripDev` from an
empty daemon state under `exPlainCfg`/`exEnvAllOk`. -/
def exRTResult : StepResult :=
  ⟨.ok (), ⟨[("/dev/da0p1", exRTMounted)]⟩, exRTMounted,
   [.mkdir "/media/USB", .exec ["mount", "/dev/da0p1", "/media/USB"]]⟩

/-! ## Supporting lemmas -/

theorem memStr_iff (p : String) (l : List String) : memStr p l = true ↔ p ∈ l := by
  induction l with
  | nil => simp [memStr]
  | cons q rest ih => simp [memStr, ih, List.mem_cons]

theorem memStr_append (p : String) (a b : List String) :
    memStr p (a ++ b) = (memStr p a || memStr p b) := by
  induction a with
  | nil => simp [memStr]
  | cons q rest ih => simp [memStr, ih, Bool.or_assoc]

theorem pollRemove_eq (current l : List String) :
    pollRemoveLoop current l =
      (l.filter (fun p => !memStr p current), l.filter (fun p => memStr p current)) := by
  induction l with
  | nil => simp [pollRemoveLoop]
  | cons p rest ih =>
    simp only [pollRemoveLoop, ih, List.filter]
    cases h : memStr p current <;> simp [h]

theorem pollAdd_known (s : List Device) (k : List String) :
    (pollAddLoop s k).2 = k ++ (pollAddLoop s k).1 := by
  induction s generalizing k with
  | nil => simp [pollAddLoop]
  | cons dev rest ih =>
    simp only [pollAddLoop]
    cases h : memStr dev.path k with
    | true => simpa [h] using ih k
    | false =>
      simp only [h, Bool.false_eq_true, if_false]
      rw [ih (k ++ [dev.path])]
      simp

theorem pollAdd_mem (p : String) (s : List Device) (k : List String) :
    p ∈ (pollAddLoop s k).1 ↔ p ∈ s.map (·.path) ∧ p ∉ k := by
  induction s generalizing k with
  | nil => simp [pollAddLoop]
  | cons dev rest ih =>
    simp only [pollAddLoop, List.map_cons, List.mem_cons]
    cases h : memStr dev.path k with
    | true =>
      have hk : dev.path ∈ k := (memStr_iff _ _).mp h
      simp only [h, if_true, ih]
      constructor
      · rintro ⟨hp, hnk⟩
        exact ⟨Or.inr hp, hnk⟩
      · rintro ⟨hp | hp, hnk⟩
        · exact absurd (hp ▸ hk) hnk
        · exact ⟨hp, hnk⟩
    | false =>
      have hk : dev.path ∉ k := by
        rw [← memStr_iff]
        simp [h]
      simp only [h, Bool.false_eq_true, if_false, List.mem_cons, ih, List.mem_append,
        List.mem_singleton]
      constructor
      · rintro (rfl | ⟨hp, hnk⟩)
        · exact ⟨Or.inl rfl, hk⟩
        · exact ⟨Or.inr hp, fun hc => hnk (Or.inl hc)⟩
      · rintro ⟨rfl | hp, hnk⟩
        · exact Or.inl rfl
        · by_cases hpd : p = dev.path
          · exact Or.inl hpd
          · exact Or.inr ⟨hp, by simp [hnk, hpd]⟩

theorem pollAdd_filter (s : List Device) (k : List String)
    (h : (s.map (·.path)).Nodup) :
    (pollAddLoop s k).1 = (s.map (·.path)).filter (fun p => !memStr p k) := by
  induction s generalizing k with
  | nil => simp [pollAddLoop]
  | cons dev rest ih =>
    rw [List.map_cons, List.nodup_cons] at h
    obtain ⟨hnd, hrest⟩ := h
    simp only [pollAddLoop, List.map_cons, List.filter]
    cases hm : memStr dev.path k with
    | true => simp [hm, ih _ hrest]
    | false =>
      simp only [hm, Bool.false_eq_true, if_false, Bool.not_false]
      rw [ih _ hrest]
      congr 1
      apply List.filter_congr
      intro q hq
      have hqd : q ≠ dev.path := fun hc => hnd (hc ▸ hq)
      simp [memStr_append, memStr, hqd]

theorem assocDel_assocSet (k : String) (v : Device) (l : List (String × Device))
    (h : assocGet k l = none) : assocDel k (assocSet k v l) = l := by
  induction l with
  | nil => simp [assocSet, assocDel]
  | cons p rest ih =>
    obtain ⟨k', v'⟩ := p
    simp only [assocGet] at h
    by_cases hk : k' = k
    · rw [if_pos hk] at h; cases h
    · rw [if_neg hk] at h
      simp [assocSet, assocDel, hk, ih h]

theorem getPassword_isSome (cfg : Config) (env : Env) (dev : Device)
    (h : (getDisplayName dev).isSome) :
    (getPassword cfg env dev).isSome := by
  rw [getPassword]
  split
  · cases hc : env.cmdOutput ["sh", "-c", cfg.geli.passwordCmd] <;> simp [hc]
  · cases hd : getDisplayName dev with
    | none => rw [hd] at h; cases h
    | some s => cases hp : env.promptRead <;> simp [hp]

theorem getPassword_effects (cfg : Config) (env : Env) (dev : Device)
    (res : Except String String) (pe : List Effect)
    (h : getPassword cfg env dev = some (res, pe)) :
    pe = [] ∨ pe = [Effect.exec ["sh", "-c", cfg.geli.passwordCmd]] := by
  simp only [getPassword] at h
  split at h
  · split at h <;> simp_all
  · split at h
    · cases h
    · split at h <;> simp_all

theorem unlockDevice_isSome (cfg : Config) (env : Env) (dev : Device)
    (h : (getDisplayName dev).isSome) :
    (unlockDevice cfg env dev).isSome := by
  rw [unlockDevice]
  split
  · simp
  · cases hl : lookupStr dev.uuid cfg.geli.keyFiles with
    | some keyfile =>
      cases he : env.execResult ["geli", "attach", "-k", keyfile, dev.path] <;> simp [he]
    | none =>
      have hp := getPassword_isSome cfg env dev h
      cases hgp : getPassword cfg env dev with
      | none => rw [hgp] at hp; cases hp
      | some v =>
        obtain ⟨res, pe⟩ := v
        cases res with
        | error e => simp [hgp]
        | ok password =>
          cases he : env.execStdinResult ["geli", "attach", dev.path] (password ++ "\n") <;>
            simp [hgp, he]

theorem unlockDevice_ok_dev (cfg : Config) (env : Env) (dev d' : Device) (effs : List Effect)
    (h : unlockDevice cfg env dev = some (.ok d', effs)) :
    d' = { dev with isUnlocked := true } := by
  simp only [unlockDevice] at h
  split at h
  · simp_all
  · split at h
    · split at h <;> simp_all
    · split at h
      · cases h
      · simp_all
      · split at h <;> simp_all

theorem unlockDevice_no_mount_effects (cfg : Config) (env : Env) (dev : Device)
    (res : Except String Device) (ue : List Effect)
    (h : unlockDevice cfg env dev = some (res, ue)) :
    (∀ p, Effect.mkdir p ∉ ue) ∧ (∀ args, Effect.exec ("mount" :: args) ∉ ue) := by
  simp only [unlockDevice] at h
  split at h
  · rw [Option.some.injEq, Prod.mk.injEq] at h
    obtain ⟨-, hue⟩ := h
    subst hue
    simp
  · split at h
    · split at h <;>
        · rw [Option.some.injEq, Prod.mk.injEq] at h
          obtain ⟨-, hue⟩ := h
          subst hue
          simp
    · split at h
      · cases h
      · rename_i pr pe hpw
        rw [Option.some.injEq, Prod.mk.injEq] at h
        obtain ⟨-, hue⟩ := h
        subst hue
        rcases getPassword_effects cfg env dev _ _ hpw with hp | hp <;> subst hp <;> simp
      · rename_i password pe hpw
        rcases getPassword_effects cfg env dev _ _ hpw with hp | hp <;>
          split at h <;>
            · rw [Option.some.injEq, Prod.mk.injEq] at h
              obtain ⟨-, hue⟩ := h
              subst hue
              subst hp
              simp

theorem getDisplayName_unlocked (dev : Device) :
    getDisplayName { dev with isUnlocked := true } = getDisplayName dev := rfl

theorem unlockStep_dev_eq (cfg : Config) (env : Env) (dev dev1 : Device) (effs : List Effect)
    (hval : (if dev.isEncrypted && !dev.isUnlocked then unlockDevice cfg env dev
             else some (.ok dev, [])) = some (.ok dev1, effs)) :
    getDisplayName dev1 = getDisplayName dev ∧ dev1.path = dev.path ∧
    dev1.label = dev.label ∧ dev1.uuid = dev.uuid ∧ dev1.fsType = dev.fsType := by
  by_cases hcond : (dev.isEncrypted && !dev.isUnlocked) = true
  · rw [if_pos hcond] at hval
    have hde := unlockDevice_ok_dev cfg env dev dev1 effs hval
    subst hde
    exact ⟨rfl, rfl, rfl, rfl, rfl⟩
  · rw [if_neg hcond] at hval
    rw [Option.some.injEq, Prod.mk.injEq] at hval
    obtain ⟨hr, -⟩ := hval
    rw [Except.ok.injEq] at hr
    subst hr
    exact ⟨rfl, rfl, rfl, rfl, rfl⟩

theorem mountDevice_isSome (cfg : Config) (env : Env) (st : DaemonState) (dev : Device)
    (h : (getDisplayName dev).isSome) :
    (mountDevice cfg env st dev).isSome := by
  simp only [mountDevice]
  split
  · simp
  · cases hval : (if dev.isEncrypted && !dev.isUnlocked then unlockDevice cfg env dev
        else some (.ok dev, [])) with
    | none =>
      have hu : (if dev.isEncrypted && !dev.isUnlocked then unlockDevice cfg env dev
          else some (.ok dev, [])).isSome := by
        split
        · exact unlockDevice_isSome cfg env dev h
        · simp
      rw [hval] at hu
      cases hu
    | some v =>
      obtain ⟨res, effs⟩ := v
      cases res with
      | error e => simp [hval]
      | ok dev1 =>
        obtain ⟨hdn, -, -, -, -⟩ := unlockStep_dev_eq cfg env dev dev1 effs hval
        simp only [hval]
        have hmd : (getMountDirectory dev1 cfg.mountBase).isSome := by
          rw [getMountDirectory, hdn]
          cases hgd : getDisplayName dev with
          | none => rw [hgd] at h; cases h
          | some s => simp
        cases hmdv : getMountDirectory dev1 cfg.mountBase with
        | none => rw [hmdv] at hmd; cases hmd
        | some mp =>
          simp only [hmdv]
          cases hmk : env.mkdirAll mp with
          | some e => simp
          | none =>
            cases hex : env.execResult ("mount" ::
                ((if (cfg.mountOpts dev1.fsType dev1.label dev1.uuid dev1.path).length > 0 then
                    ["-o", joinSep "," (cfg.mountOpts dev1.fsType dev1.label dev1.uuid dev1.path)]
                  else []) ++
                 (if dev1.fsType ≠ "" && dev1.fsType ≠ "auto" then ["-t", dev1.fsType] else []) ++
                 [dev1.path, mp])) <;> simp [hex]

theorem mountDevice_ok_shape (cfg : Config) (env : Env) (st : DaemonState) (dev : Device)
    (r : StepResult)
    (hm : mountDevice cfg env st dev = some r) (hok : r.res = .ok ()) :
    r.dev.path = dev.path ∧ r.dev.isMounted = true ∧
    r.st = ⟨assocSet dev.path r.dev st.mounted⟩ := by
  simp only [mountDevice] at hm
  split at hm
  · rw [Option.some.injEq] at hm
    subst hm
    cases hok
  · split at hm
    · cases hm
    · rw [Option.some.injEq] at hm
      subst hm
      cases hok
    · rename_i dev1 effs hval
      split at hm
      · cases hm
      · rename_i mp hmdv
        split at hm
        · rw [Option.some.injEq] at hm
          subst hm
          cases hok
        · split at hm
          · rw [Option.some.injEq] at hm
            subst hm
            cases hok
          · rw [Option.some.injEq] at hm
            subst hm
            obtain ⟨-, hpath, -, -, -⟩ := unlockStep_dev_eq cfg env dev dev1 effs hval
            refine ⟨hpath, rfl, ?_⟩
            simp [hpath]

theorem mountAllLoop_total (cfg : Config) (env : Env) (devs : List Device)
    (h : ∀ d ∈ devs, (getDisplayName d).isSome) :
    ∀ st, ∃ st' effs, mountAllLoop cfg env st devs =
      some (st', (devs.filter (fun d => d.isPartition && !d.isMounted)).map (·.path), effs) := by
  induction devs with
  | nil => intro st; exact ⟨st, [], rfl⟩
  | cons dev rest ih =>
    intro st
    have hd : (getDisplayName dev).isSome = true := h dev (List.mem_cons_self _ _)
    have hr : ∀ d ∈ rest, (getDisplayName d).isSome = true :=
      fun d hdm => h d (List.mem_cons_of_mem _ hdm)
    by_cases hel : (dev.isPartition && !dev.isMounted) = true
    · have hsome := mountDevice_isSome cfg env st dev hd
      cases hmv : mountDevice cfg env st dev with
      | none => rw [hmv] at hsome; cases hsome
      | some r =>
        obtain ⟨st', effs, hh⟩ := ih hr r.st
        refine ⟨st', r.effs ++ effs, ?_⟩
        simp [mountAllLoop, hel, hmv, hh, List.filter_cons]
    · obtain ⟨st', effs, hh⟩ := ih hr st
      refine ⟨st', effs, ?_⟩
      simp [mountAllLoop, hel, hh, List.filter_cons]

theorem replaceAllFuel_no_head (p : Char) (ps new : List Char) :
    ∀ (fuel : Nat) (l : List Char), p ∉ l → replaceAllFuel (p :: ps) new fuel l = l := by
  intro fuel l
  induction l generalizing fuel with
  | nil => intro _; cases fuel <;> rfl
  | cons c rest ih =>
    intro h
    cases fuel with
    | zero => rfl
    | succ fuel =>
      have hpc : p ≠ c := fun hc => h (hc ▸ List.mem_cons_self c rest)
      have hnp : listIsPref (p :: ps) (c :: rest) = false := by
        simp [listIsPref, hpc]
      simp [replaceAllFuel, hnp, ih fuel (fun hm => h (List.mem_cons_of_mem _ hm))]

theorem replaceAll_no_brace (s pat new : String)
    (hp : pat.data.headD ' ' = Char.ofNat 123)
    (hs : Char.ofNat 123 ∉ s.data) : strReplaceAll s pat new = s := by
  cases hpd : pat.data with
  | nil =>
    rw [hpd] at hp
    simp only [List.headD_nil] at hp
    exact absurd hp (by decide)
  | cons p ps =>
    rw [hpd] at hp
    simp only [List.headD_cons] at hp
    subst hp
    simp only [strReplaceAll, hpd]
    rw [replaceAllFuel_no_head _ ps new.data s.data.length s.data hs]

theorem hook_interpolates_label (label path uuid mp : String)
    (hl : Char.ofNat 123 ∉ label.data) :
    buildHookCmd "logger {label}"
      { Device.zero with path := path, label := label, uuid := uuid, mountPoint := mp } =
      "logger " ++ label := by
  have h1 : strReplaceAll "logger {label}" "{device}" path = "logger {label}" := rfl
  have h2 : strReplaceAll "logger {label}" "{label}" label = "logger " ++ label := by
    rw [show strReplaceAll "logger {label}" "{label}" label =
      ⟨"logger ".data ++ (label.data ++ [])⟩ from rfl, List.append_nil]
    rfl
  have hbrace : Char.ofNat 123 ∉ ("logger " ++ label).data := by
    intro hc
    rw [String.data_append] at hc
    rcases List.mem_append.mp hc with hc | hc
    · exact absurd hc (by decide)
    · exact hl hc
  have h3 := replaceAll_no_brace ("logger " ++ label) "{uuid}" uuid rfl hbrace
  have h4 := replaceAll_no_brace ("logger " ++ label) "{mount_point}" mp rfl hbrace
  simp only [buildHookCmd]
  rw [h1, h2, h3, h4]

/-! ## Claim theorems -/

/-- C1: the claim states that `GetMountDirectory` replaces every character
outside a safe identifier alphabet and that the result resolves strictly
inside the base directory.  The code replaces only `/` and ` `: a label of
`..` makes the computed directory escape the base entirely (`filepath.Join`
collapses `/media/..` to `/`), a shell metacharacter `;` passes through
unchanged, and a leading dot is preserved. -/
theorem C1_mount_directory_not_sanitized :
    getMountDirectory { Device.zero with label := ".." } "/media" = some "/" ∧
    getMountDirectory { Device.zero with label := "evil;rm -rf x" } "/media" =
      some "/media/evil;rm_-rf_x" ∧
    getMountDirectory { Device.zero with label := ".hidden" } "/media" =
      some "/media/.hidden" := by
  decide

/-- C2: the claim states that the Event Hook Dispatcher passes device
attributes as distinct argument values so that no attribute can inject
shell syntax.  The code instead substitutes the attributes textually into a
single command line executed via `sh -c`: for the template
`logger {label}` and a label carrying `; touch /tmp/pwn`, the executed
argv is `sh -c "logger x; touch /tmp/pwn"` — the label's `;` becomes shell
syntax, and the label never appears as a distinct argument. -/
theorem C2_event_hook_shell_interpolation :
    executeEventHook exHookCfg "device_added" exInjDev =
      [Effect.hookLaunch ["sh", "-c", "logger x; touch /tmp/pwn"]] ∧
    exInjDev.label ∉ ["sh", "-c", "logger x; touch /tmp/pwn"] := by
  decide

/-- C3: one tick of the poll-diff loop emits `DeviceAdded` exactly for the
paths present in the new scan and absent from the known set, emits
`DeviceRemoved` exactly for the known paths absent from the new scan,
re-emits nothing present in both, and never emits both events for one path
in the same tick. -/
theorem C3_poll_tick_diff_exact (known : List String) (scanned : List Device) (p : String) :
    (p ∈ (pollTick known scanned).1 ↔ p ∈ scanned.map (·.path) ∧ p ∉ known) ∧
    (p ∈ (pollTick known scanned).2.1 ↔ p ∈ known ∧ p ∉ scanned.map (·.path)) ∧
    ¬(p ∈ (pollTick known scanned).1 ∧ p ∈ (pollTick known scanned).2.1) := by
  have h1 : (pollTick known scanned).1 = (pollAddLoop scanned known).1 := rfl
  have h2 : (pollTick known scanned).2.1 =
      ((pollAddLoop scanned known).2).filter
        (fun q => !memStr q (scanned.map (·.path))) := by
    simp [pollTick, pollRemove_eq]
  have hfst : p ∈ (pollTick known scanned).1 ↔ p ∈ scanned.map (·.path) ∧ p ∉ known := by
    rw [h1]; exact pollAdd_mem p scanned known
  have hsnd : p ∈ (pollTick known scanned).2.1 ↔ p ∈ known ∧ p ∉ scanned.map (·.path) := by
    rw [h2, pollAdd_known, List.filter_append, List.mem_append, List.mem_filter,
      List.mem_filter]
    constructor
    · rintro (⟨hp, hc⟩ | ⟨hp, hc⟩)
      · refine ⟨hp, fun hcc => ?_⟩
        rw [Bool.not_eq_true'] at hc
        rw [← memStr_iff p _] at hcc
        rw [hc] at hcc
        cases hcc
      · have hmem := (pollAdd_mem p scanned known).mp hp
        have : memStr p (scanned.map (·.path)) = true := (memStr_iff _ _).mpr hmem.1
        simp [this] at hc
    · rintro ⟨hpk, hnc⟩
      left
      refine ⟨hpk, ?_⟩
      have : memStr p (scanned.map (·.path)) = false := by
        rw [← Bool.not_eq_true, memStr_iff]
        exact hnc
      simp [this]
  refine ⟨hfst, hsnd, ?_⟩
  rintro ⟨ha, hr⟩
  exact (hsnd.mp hr).2 (hfst.mp ha).1

/-- C4 counterexample: the claim states that Added events within one tick
come out in path-sorted order.  For a scan that returns `/dev/b` before
`/dev/a` (both new), the tick emits `["/dev/b", "/dev/a"]`, with the
lexicographically smaller path handled second. -/
theorem C4_added_events_not_sorted :
    (pollTick [] [exDevB, exDevA]).1 = ["/dev/b", "/dev/a"] ∧
    strLexLt exDevA.path exDevB.path = true := by
  decide

/-- C4 amended: within one tick, Added events follow the scan-result order
(filtered by novelty), and Removed events follow the iteration order of the
known-device map (here modelled as insertion order; Go leaves map order
unspecified).  No sorting is performed. -/
theorem C4_events_follow_scan_and_map_order (known : List String) (scanned : List Device)
    (h : (scanned.map (·.path)).Nodup) :
    (pollTick known scanned).1 = (scanned.map (·.path)).filter (fun p => !memStr p known) ∧
    (pollTick known scanned).2.1 =
      known.filter (fun p => !memStr p (scanned.map (·.path))) := by
  constructor
  · exact pollAdd_filter scanned known h
  · have h2 : (pollTick known scanned).2.1 =
        ((pollAddLoop scanned known).2).filter
          (fun q => !memStr q (scanned.map (·.path))) := by
      simp [pollTick, pollRemove_eq]
    rw [h2, pollAdd_known, List.filter_append]
    have hnil : ((pollAddLoop scanned known).1).filter
        (fun q => !memStr q (scanned.map (·.path))) = [] := by
      rw [List.filter_eq_nil_iff]
      intro q hq
      have hmem := (pollAdd_mem q scanned known).mp hq
      simp [(memStr_iff _ _).mpr hmem.1]
    rw [hnil, List.append_nil]

/-- C4 witness: the amended ordering theorem applied to a concrete tick. -/
theorem C4_events_follow_scan_and_map_order_witness :
    (pollTick ["/dev/c"] [exDevB, exDevA]).1 = ["/dev/b", "/dev/a"] ∧
    (pollTick ["/dev/c"] [exDevB, exDevA]).2.1 = ["/dev/c"] :=
  ⟨((C4_events_follow_scan_and_map_order ["/dev/c"] [exDevB, exDevA] (by decide)).1).trans
      (by decide),
   ((C4_events_follow_scan_and_map_order ["/dev/c"] [exDevB, exDevA] (by decide)).2).trans
      (by decide)⟩

/-- C5 counterexample: the claim states that a failing primary
disk-enumeration tool triggers a fallback rather than failing the whole
scan.  On FreeBSD there is no fallback: with `geom disk list` failing and
every other channel healthy, `scanFreeBSD` fails the whole scan. -/
theorem C5_freebsd_primary_failure_fails_scan :
    scanFreeBSD exScanEnvGeomFail = .error "failed to list disks: exit status 1" := by
  decide

/-- C5 amended: on Linux a failing `lsblk` falls back to `/sys/block`
enumeration, and only when that also fails does the scan return an explicit
error; on FreeBSD a failing `geom disk list` fails the whole scan with an
explicit error and no fallback is attempted.  In every failure case the
error is returned to the caller with no device list. -/
theorem C5_scan_failure_policy (env : ScanEnv) :
    (∀ e, env.lsblkJ = .error e → scanLinux env = scanLinuxFallback env) ∧
    (∀ e, env.readDir "/sys/block" = .error e →
        scanLinuxFallback env = .error ("failed to read /sys/block: " ++ e)) ∧
    (∀ e, env.geomDiskList = .error e →
        scanFreeBSD env = .error ("failed to list disks: " ++ e)) := by
  refine ⟨?_, ?_, ?_⟩ <;> intro e he <;>
    simp [scanLinux, scanLinuxFallback, scanFreeBSD, he]

/-- C5 witness: the failure policy applied to an environment where every
method fails. -/
theorem C5_scan_failure_policy_witness :
    scanLinux exScanEnvAllFail = scanLinuxFallback exScanEnvAllFail ∧
    scanLinuxFallback exScanEnvAllFail = .error "failed to read /sys/block: sys gone" ∧
    scanFreeBSD exScanEnvAllFail = .error "failed to list disks: geom gone" :=
  ⟨(C5_scan_failure_policy exScanEnvAllFail).1 "lsblk gone" rfl,
   ((C5_scan_failure_policy exScanEnvAllFail).2.1 "sys gone" rfl).trans (by decide),
   ((C5_scan_failure_policy exScanEnvAllFail).2.2 "geom gone" rfl).trans (by decide)⟩

/-- C6 counterexample: the claim states that "mount all" returns a count of
successful mounts and a list of per-device failures.  Over three devices
with the second failing, `MountAll` returns exactly the same `nil` error it
returns when all three succeed — the return value carries no count and no
failure list — even though all three devices are attempted. -/
theorem C6_mountall_returns_no_summary :
    (mountAll exPlainCfg exEnvSecondFails ⟨[]⟩ (.ok exBatchDevs)).map (fun r => r.1) =
      some (.ok ()) ∧
    (mountAll exPlainCfg exEnvAllOk ⟨[]⟩ (.ok exBatchDevs)).map (fun r => r.1) =
      some (.ok ()) ∧
    (mountAll exPlainCfg exEnvSecondFails ⟨[]⟩ (.ok exBatchDevs)).map (fun r => r.2.2.1) =
      some ["/dev/da0p1", "/dev/da0p2", "/dev/da0p3"] := by
  decide

/-- C6 amended: every eligible device (an unmounted partition) is attempted
independently — a failure for one device never aborts the remaining ones —
but per-device failures are only logged: `MountAll` returns `nil` whenever
the scan succeeded, with no success count and no per-device failure
list. -/
theorem C6_mountall_attempts_all_independently (cfg : Config) (env : Env) (st : DaemonState)
    (devs : List Device)
    (h : ∀ d ∈ devs, (getDisplayName d).isSome) :
    ∃ st' effs, mountAll cfg env st (.ok devs) =
      some (.ok (), st',
        (devs.filter (fun d => d.isPartition && !d.isMounted)).map (·.path), effs) := by
  obtain ⟨st', effs, hh⟩ := mountAllLoop_total cfg env devs h st
  exact ⟨st', effs, by simp [mountAll, hh]⟩

/-- C6 witness: the batch scenario where the second of three devices fails
still attempts all three and returns no error. -/
theorem C6_mountall_attempts_all_independently_witness :
    ∃ st' effs, mountAll exPlainCfg exEnvSecondFails ⟨[]⟩ (.ok exBatchDevs) =
      some (.ok (), st', ["/dev/da0p1", "/dev/da0p2", "/dev/da0p3"], effs) := by
  obtain ⟨st', effs, hh⟩ :=
    C6_mountall_attempts_all_independently exPlainCfg exEnvSecondFails ⟨[]⟩ exBatchDevs
      (by decide)
  have he : (exBatchDevs.filter (fun d => d.isPartition && !d.isMounted)).map (·.path) =
      ["/dev/da0p1", "/dev/da0p2", "/dev/da0p3"] := by decide
  exact ⟨st', effs, he ▸ hh⟩

/-- C7: when the unmount tool fails for a device tracked as mounted,
`unmountDevice` returns the error and changes nothing: the daemon state
(including the `mounted` map) and the device record (`MountPoint`,
`IsMounted`) are exactly as before, so a retry is possible. -/
theorem C7_unmount_failure_leaves_bookkeeping (cfg : Config) (env : Env) (st : DaemonState)
    (dev : Device) (e : String × String)
    (h1 : dev.isMounted = true)
    (h2 : env.execResult ["umount", dev.mountPoint] = .error e) :
    unmountDevice cfg env st dev =
      ⟨.error (fmtExecErr "unmount failed: " e), st, dev,
       [.exec ["umount", dev.mountPoint]]⟩ := by
  simp [unmountDevice, h1, h2]

/-- C7 witness: a concrete mounted device whose unmount tool fails. -/
theorem C7_unmount_failure_leaves_bookkeeping_witness :
    exMountedDev.isMounted = true ∧
    unmountDevice exPlainCfg exEnvUmountFail ⟨[(exMountedDev.path, exMountedDev)]⟩
        exMountedDev =
      ⟨.error "unmount failed: exit status 1 (output: umount: device busy)",
       ⟨[(exMountedDev.path, exMountedDev)]⟩, exMountedDev,
       [.exec ["umount", "/media/W"]]⟩ :=
  ⟨rfl,
   (C7_unmount_failure_leaves_bookkeeping exPlainCfg exEnvUmountFail
      ⟨[(exMountedDev.path, exMountedDev)]⟩ exMountedDev
      ("exit status 1", "umount: device busy") rfl rfl).trans (by decide)⟩

/-- C8: a successful mount followed by a successful unmount (no intervening
operations) restores the bookkeeping: the `mounted` map equals its
pre-mount value (in particular no residual entry for the device's path),
the device's `MountPoint` is empty and `IsMounted` false, and the removal
of the (empty) mount directory is attempted. -/
theorem C8_mount_unmount_roundtrip (cfg : Config) (env : Env) (st : DaemonState)
    (dev : Device) (r : StepResult)
    (hpre : assocGet dev.path st.mounted = none)
    (hm : mountDevice cfg env st dev = some r)
    (hok : r.res = .ok ())
    (hu : ∃ out, env.execResult ["umount", r.dev.mountPoint] = .ok out) :
    (unmountDevice cfg env r.st r.dev).res = .ok () ∧
    (unmountDevice cfg env r.st r.dev).st.mounted = st.mounted ∧
    assocGet dev.path (unmountDevice cfg env r.st r.dev).st.mounted = none ∧
    (unmountDevice cfg env r.st r.dev).dev.mountPoint = "" ∧
    (unmountDevice cfg env r.st r.dev).dev.isMounted = false ∧
    Effect.removeFile r.dev.mountPoint ∈ (unmountDevice cfg env r.st r.dev).effs := by
  obtain ⟨hpath, hmnt, hst⟩ := mountDevice_ok_shape cfg env st dev r hm hok
  obtain ⟨out, hout⟩ := hu
  have hdel : assocDel r.dev.path r.st.mounted = st.mounted := by
    rw [hst]
    simp only [hpath]
    exact assocDel_assocSet dev.path r.dev st.mounted hpre
  have hu1 : unmountDevice cfg env r.st r.dev =
      ⟨.ok (), ⟨assocDel r.dev.path r.st.mounted⟩,
       { r.dev with mountPoint := "", isMounted := false },
       [.exec ["umount", r.dev.mountPoint], .removeFile r.dev.mountPoint] ++
         executeEventHook cfg "device_unmounted"
           { r.dev with mountPoint := "", isMounted := false }⟩ := by
    simp [unmountDevice, hmnt, hout]
  rw [hu1]
  refine ⟨rfl, hdel, ?_, rfl, rfl, ?_⟩
  · rw [show (⟨.ok (), ⟨assocDel r.dev.path r.st.mounted⟩,
      { r.dev with mountPoint := "", isMounted := false },
      [.exec ["umount", r.dev.mountPoint], .removeFile r.dev.mountPoint] ++
        executeEventHook cfg "device_unmounted"
          { r.dev with mountPoint := "", isMounted := false }⟩ : StepResult).st.mounted =
      assocDel r.dev.path r.st.mounted from rfl, hdel, hpre]
  · simp

/-- C8 witness: the concrete round trip of an unencrypted labelled
partition from the empty daemon state. -/
theorem C8_mount_unmount_roundtrip_witness :
    mountDevice exPlainCfg exEnvAllOk ⟨[]⟩ exRoundTripDev = some exRTResult ∧
    (unmountDevice exPlainCfg exEnvAllOk exRTResult.st exRTResult.dev).res = .ok () ∧
    (unmountDevice exPlainCfg exEnvAllOk exRTResult.st exRTResult.dev).st.mounted = [] ∧
    (unmountDevice exPlainCfg exEnvAllOk exRTResult.st exRTResult.dev).dev.mountPoint = "" ∧
    (unmountDevice exPlainCfg exEnvAllOk exRTResult.st exRTResult.dev).dev.isMounted
      = false := by
  have hm : mountDevice exPlainCfg exEnvAllOk ⟨[]⟩ exRoundTripDev = some exRTResult := by
    decide
  have h := C8_mount_unmount_roundtrip exPlainCfg exEnvAllOk ⟨[]⟩ exRoundTripDev exRTResult
    rfl hm rfl ⟨"", rfl⟩
  exact ⟨hm, h.1, h.2.1, h.2.2.2.1, h.2.2.2.2.1⟩

/-- C9: for an encrypted, still-locked, unmounted device whose unlock
fails, `mountDevice` returns the unlock error with daemon state and device
record unchanged, and the effect trace is exactly the unlocker's — it
contains no directory creation and no mount-tool invocation, so the
failure aborts only this device's mount attempt before any mount work. -/
theorem C9_unlock_failure_aborts_mount (cfg : Config) (env : Env) (st : DaemonState)
    (dev : Device) (e : String) (ue : List Effect)
    (henc : dev.isEncrypted = true) (hlock : dev.isUnlocked = false)
    (hnm : dev.isMounted = false)
    (hu : unlockDevice cfg env dev = some (.error e, ue)) :
    mountDevice cfg env st dev =
      some ⟨.error ("failed to unlock device: " ++ e), st, dev, ue⟩ ∧
    (∀ p, Effect.mkdir p ∉ ue) ∧
    (∀ args, Effect.exec ("mount" :: args) ∉ ue) := by
  obtain ⟨h1, h2⟩ := unlockDevice_no_mount_effects cfg env dev _ _ hu
  refine ⟨?_, h1, h2⟩
  simp [mountDevice, hnm, henc, hlock, hu]

/-- C9 witness: an encrypted device under a configuration with GELI
disabled, so the unlock step fails. -/
theorem C9_unlock_failure_aborts_mount_witness :
    exEncDev.isEncrypted = true ∧ exEncDev.isUnlocked = false ∧ exEncDev.isMounted = false ∧
    unlockDevice exPlainCfg exEnvAllOk exEncDev =
      some (.error "GELI support is disabled", []) ∧
    mountDevice exPlainCfg exEnvAllOk ⟨[]⟩ exEncDev =
      some ⟨.error "failed to unlock device: GELI support is disabled", ⟨[]⟩, exEncDev, []⟩ := by
  refine ⟨rfl, rfl, rfl, by decide, ?_⟩
  exact (C9_unlock_failure_aborts_mount exPlainCfg exEnvAllOk ⟨[]⟩ exEncDev
    "GELI support is disabled" [] rfl rfl rfl (by decide)).1

/-- C10 counterexample: the claim states that `GetDisplayName` is total,
including for an empty label with a non-empty UUID shorter than 8
characters.  There Go's `d.UUID[:8]` panics (modelled as `none`). -/
theorem C10_short_uuid_panic :
    getDisplayName { Device.zero with name := "da0", uuid := "abc" } = none := by
  decide

/-- C10 amended: `GetDisplayName` returns a value exactly when the label is
non-empty, the UUID is empty, or the UUID has at least 8 characters; it
then returns the label, else the 8-character UUID prefix followed by
`...`, else the raw device name.  For an empty label and a non-empty UUID
shorter than 8 characters it panics. -/
theorem C10_display_name_totality_domain (d : Device) :
    ((getDisplayName d).isSome ↔ d.label ≠ "" ∨ d.uuid = "" ∨ 8 ≤ d.uuid.data.length) ∧
    (d.label ≠ "" → getDisplayName d = some d.label) ∧
    (d.label = "" → d.uuid = "" → getDisplayName d = some d.name) ∧
    (d.label = "" → d.uuid ≠ "" → 8 ≤ d.uuid.data.length →
      getDisplayName d = some (String.mk (d.uuid.data.take 8) ++ "...")) := by
  by_cases hl : d.label = ""
  · by_cases hu : d.uuid = ""
    · simp [getDisplayName, hl, hu]
    · by_cases h8 : 8 ≤ d.uuid.data.length
      · simp [getDisplayName, hl, hu, h8]
      · simp [getDisplayName, hl, hu, h8]
  · simp [getDisplayName, hl]

/-- C10 witness: the UUID-prefix branch applied to a 10-character UUID. -/
theorem C10_display_name_totality_domain_witness :
    getDisplayName { Device.zero with name := "da0", uuid := "0123456789" } =
      some "01234567..." :=
  ((C10_display_name_totality_domain
      { Device.zero with name := "da0", uuid := "0123456789" }).2.2.2
    rfl (by decide) (by decide)).trans (by decide)

end PGMount
